import Mathlib

/-!
A shallow embedding of the `bl_save` save-file reader: `src/read.rs`,
`src/escape.rs` and `src/data.rs` translated into executable Lean
definitions, together with theorems checking the specification's claims
about them.

Modelling conventions:
* decoded text lines are `List Char` (the cp1252 line-splitting layer hands
  the reader fully decoded lines, so the model of the header and record
  stages works on a `List Line` of decoded lines);
* Rust `f32` fields are modelled as exact rationals with the `FromStr`
  decimal grammar (sign, digits, optional fraction, optional exponent);
  the rounding of the exact decimal value to the nearest `f32` and the
  textual `inf`/`nan` forms are not modelled — every numeric value a claim
  touches is exactly representable;
* `i32` and `usize` parsing are `Int`/`Nat` with the source's range checks
  explicit; the `as u8` casts take the low 8 bits;
* `io::Error` values carry their message string; the reader's iteration is
  a state-passing step function, and the `panic!` in `Reader::next` is an
  explicit `RStep.panicked` outcome.
-/

deriving instance DecidableEq for Except

/-- A decoded text line, as produced by the cp1252 line splitter. -/
abbrev Line := List Char

/-- Modelled from the spec: the byte-to-codepoint table `BYTE_TO_CHAR` of
`src/cp1252.rs` is not present under `src/`; the spec (§4.1) specifies only
a total, deterministic 256-entry byte-to-character mapping. It is modelled
as the codepoint of equal value; no claim depends on individual entries
beyond the table being a fixed total function. -/
def byteToChar (b : Nat) : Char := Char.ofNat (b % 256)

/-- `take_word_consume_space` (`src/read.rs`): all characters up to the next
single space, consuming that space, or up to the end of the line. -/
def takeWordConsumeSpace : Line → Line × Line
  | [] => ([], [])
  | c :: rest =>
    if c = ' ' then ([], rest)
    else
      let p := takeWordConsumeSpace rest
      (c :: p.1, p.2)

/-- Numeric value of a decimal digit character. -/
def digitVal (c : Char) : Nat := c.toNat - '0'.toNat

/-- Value of a string of decimal digits (most significant first). -/
def decValue (ds : List Char) : Nat := ds.foldl (fun a c => a * 10 + digitVal c) 0

/-- A non-empty all-decimal-digit run parsed to its value, else `none`
(the digit-run core shared by the Rust `FromStr` integer grammars). -/
def parseDigitsNat (cs : Line) : Option Nat :=
  if cs = [] then none
  else if cs.all Char.isDigit then some (decValue cs) else none

/-- Rust `usize::from_str` on 64-bit: optional `+`, digits, range `< 2^64`. -/
def parseU64 (cs : Line) : Option Nat :=
  match cs with
  | '+' :: rest => (parseDigitsNat rest).bind (fun v => if v < 2 ^ 64 then some v else none)
  | '-' :: _ => none
  | _ => (parseDigitsNat cs).bind (fun v => if v < 2 ^ 64 then some v else none)

/-- Rust `i32::from_str`: optional sign, digits, range check. -/
def parseI32 (cs : Line) : Option Int :=
  match cs with
  | '+' :: rest => (parseDigitsNat rest).bind
      (fun v => if v ≤ 2 ^ 31 - 1 then some (v : Int) else none)
  | '-' :: rest => (parseDigitsNat rest).bind
      (fun v => if v ≤ 2 ^ 31 then some (-(v : Int)) else none)
  | _ => (parseDigitsNat cs).bind
      (fun v => if v ≤ 2 ^ 31 - 1 then some (v : Int) else none)

/-- Decimal mantissa of the Rust `f32` `FromStr` grammar: digits, optional
`.` and fraction digits, at least one digit overall. Returns the digit
string's value, the number of fraction digits, and the unconsumed
remainder (the exact value is `value / 10 ^ fracLen`). -/
def parseDecMantissa (cs : Line) : Option (Nat × Nat × Line) :=
  let ip := cs.takeWhile Char.isDigit
  let r1 := cs.dropWhile Char.isDigit
  match r1 with
  | '.' :: r2 =>
    let fp := r2.takeWhile Char.isDigit
    let r3 := r2.dropWhile Char.isDigit
    if ip = [] ∧ fp = [] then none
    else some (decValue ip * 10 ^ fp.length + decValue fp, fp.length, r3)
  | _ => if ip = [] then none else some (decValue ip, 0, r1)

/-- Optional exponent part of the `f32` grammar; `none` on trailing garbage. -/
def parseExp : Line → Option Int
  | [] => some 0
  | e :: rest =>
    if e = 'e' ∨ e = 'E' then
      match rest with
      | '+' :: ds => (parseDigitsNat ds).map (fun v => (v : Int))
      | '-' :: ds => (parseDigitsNat ds).map (fun v => -(v : Int))
      | ds => (parseDigitsNat ds).map (fun v => (v : Int))
    else none

/-- The exact rational `sgn * m / 10 ^ flen * 10 ^ e`, assembled with a
single `mkRat` so the value is kernel-computable. -/
def ratOfParts (sgn : Int) (m : Nat) (flen : Nat) (e : Int) : ℚ :=
  let e2 : Int := e - flen
  if 0 ≤ e2 then mkRat (sgn * m * 10 ^ e2.toNat) 1
  else mkRat (sgn * m) (10 ^ (-e2).toNat)

/-- Rust `"...".parse::<f32>()`, with the value kept exact (see header note). -/
def parseFloat (cs : Line) : Option ℚ :=
  let sb : Int × Line :=
    match cs with
    | '+' :: r => (1, r)
    | '-' :: r => (-1, r)
    | _ => (1, cs)
  match parseDecMantissa sb.2 with
  | none => none
  | some mr =>
    match parseExp mr.2.2 with
    | none => none
    | some e => some (ratOfParts sb.1 mr.1 mr.2.1 e)

/-- `float_from_chars` (`src/read.rs`): next word parsed as a float,
defaulting to `0.0`. -/
def floatFromChars (cs : Line) : ℚ × Line :=
  let p := takeWordConsumeSpace cs
  ((parseFloat p.1).getD 0, p.2)

/-- `int_from_chars` (`src/read.rs`): next word parsed as an `i32`,
defaulting to `0`. -/
def intFromChars (cs : Line) : Int × Line :=
  let p := takeWordConsumeSpace cs
  ((parseI32 p.1).getD 0, p.2)

/-- `bool_from_chars` (`src/read.rs`): `int_from_chars != 0`. -/
def boolFromChars (cs : Line) : Bool × Line :=
  let p := intFromChars cs
  (p.1 != 0, p.2)

/-- Rust `as u8` on an `i32`: the low 8 bits. -/
def intToU8 (n : Int) : Nat := (n % 256).toNat

/-- `BrickBase` (`src/data.rs`), with `f32` as exact rationals and `u8` as `Nat`. -/
structure BrickBase where
  uiName : Line
  position : ℚ × ℚ × ℚ
  angle : Nat
  isBaseplate : Bool
  colorIndex : Nat
  print : Line
  colorFx : Nat
  shapeFx : Nat
  raycasting : Bool
  collision : Bool
  rendering : Bool
deriving DecidableEq

/-- `Brick` (`src/data.rs`): base data plus unrecognized extra lines. -/
structure Brick where
  base : BrickBase
  unknownExtra : List Line
deriving DecidableEq

/-- `io::Error` as used by the reader: `invalid_data` with a message. -/
inductive IoErr where
  | invalidData (msg : String)
deriving DecidableEq

/-- `BrickLine` (`src/read.rs`); `Extra` inlines `BrickExtra::Unknown`. -/
inductive BrickLine where
  | base (b : BrickBase)
  | extra (line : Line)
  | linecount (n : Nat)
deriving DecidableEq

/-- Boolean list-prefix test (Rust `str::starts_with`). -/
def startsWithL : Line → Line → Bool
  | [], _ => true
  | _ :: _, [] => false
  | p :: ps, c :: cs => (p == c) && startsWithL ps cs

/-- `EXTRA_DATA_PREFIX` (`src/read.rs`). -/
def extraDataPfx : Line := ['+', '-']

/-- `LINECOUNT_PREFIX` (`src/read.rs`). -/
def linecountPfx : Line := "Linecount ".toList

/-- The field sequence of a base record after the quote and its space
(`parse_brick_data_line`, `src/read.rs`, lines 191–216). -/
def parseBaseFields (ui : Line) (cs : Line) : BrickBase :=
  let px := floatFromChars cs
  let py := floatFromChars px.2
  let pz := floatFromChars py.2
  let pa := intFromChars pz.2
  let pb := boolFromChars pa.2
  let pc := intFromChars pb.2
  let pp := takeWordConsumeSpace pc.2
  let pcf := intFromChars pp.2
  let psf := intFromChars pcf.2
  let pray := boolFromChars psf.2
  let pcol := boolFromChars pray.2
  let pren := boolFromChars pcol.2
  { uiName := ui
    position := (px.1, py.1, pz.1)
    angle := intToU8 pa.1
    isBaseplate := pb.1
    colorIndex := intToU8 pc.1
    print := pp.1
    colorFx := intToU8 pcf.1
    shapeFx := intToU8 psf.1
    raycasting := pray.1
    collision := pcol.1
    rendering := pren.1 }

/-- `parse_brick_data_line` (`src/read.rs`): classify a post-header line as
extra (`+-` prefixed), count redeclaration (`Linecount ` prefixed), or a
base record, which requires a `"` and an immediately following space. -/
def parseBrickDataLine (cs : Line) : Except IoErr BrickLine :=
  if startsWithL extraDataPfx cs then .ok (.extra cs)
  else if startsWithL linecountPfx cs then
    .ok (.linecount ((parseU64 (cs.drop linecountPfx.length)).getD 0))
  else
    match cs.dropWhile (fun c => c != '"') with
    | [] => .error (IoErr.invalidData "Invalid brick line")
    | _ :: after =>
      match after with
      | ' ' :: rest => .ok (.base (parseBaseFields (cs.takeWhile (fun c => c != '"')) rest))
      | _ => .error (IoErr.invalidData "Invalid brick line")

/-- A hex-digit's value (`char::to_digit(16)` as used by `from_str_radix`). -/
def hexDigitVal (c : Char) : Option Nat :=
  if '0' ≤ c ∧ c ≤ '9' then some (c.toNat - '0'.toNat)
  else if 'a' ≤ c ∧ c ≤ 'f' then some (c.toNat - 'a'.toNat + 10)
  else if 'A' ≤ c ∧ c ≤ 'F' then some (c.toNat - 'A'.toNat + 10)
  else none

/-- `u8::from_str_radix(src, 16)` on the two-character string `h1 h2`:
an optional leading `+` then hex digits (two hex digits always fit `u8`). -/
def hexPairByte (h1 h2 : Char) : Option Nat :=
  if h1 = '+' then hexDigitVal h2
  else
    match hexDigitVal h1, hexDigitVal h2 with
    | some a, some b => some (a * 16 + b)
    | _, _ => none

/-- The `\cX` arm of `collapse_one` (`src/escape.rs`): push the control code
for a recognized suffix (with the extra leading `2` for `\c0` on empty
output), or the literal `\c` + character for an unrecognized one. -/
def cEscPush (dst : Line) (c : Char) : Line :=
  if c = 'r' then dst ++ [Char.ofNat 15]
  else if c = 'p' then dst ++ [Char.ofNat 16]
  else if c = 'o' then dst ++ [Char.ofNat 17]
  else if c = '0' then
    (if dst = [] then dst ++ [Char.ofNat 2, Char.ofNat 1] else dst ++ [Char.ofNat 1])
  else if c = '1' then dst ++ [Char.ofNat 2]
  else if c = '2' then dst ++ [Char.ofNat 3]
  else if c = '3' then dst ++ [Char.ofNat 4]
  else if c = '4' then dst ++ [Char.ofNat 5]
  else if c = '5' then dst ++ [Char.ofNat 6]
  else if c = '6' then dst ++ [Char.ofNat 7]
  else if c = '7' then dst ++ [Char.ofNat 0xb]
  else if c = '8' then dst ++ [Char.ofNat 0xc]
  else if c = '9' then dst ++ [Char.ofNat 0xe]
  else dst ++ ['\\', 'c', c]

/-- `collapse` composed with `collapse_one` (`src/escape.rs`), with the
destination accumulator explicit. The nested `chars.next()` matches of
`collapse_one` become the deep patterns after a backslash; pattern order
follows the source's match arms (`x`, `c`, `r`, `n`, `t`, any, none). -/
def collapseAux (dst : Line) : Line → Line
  | [] => dst
  | '\\' :: [] => dst ++ ['\\']
  | '\\' :: 'x' :: [] => dst ++ ['\\', 'x']
  | '\\' :: 'x' :: h1 :: [] => dst ++ ['\\', 'x', h1]
  | '\\' :: 'x' :: h1 :: h2 :: rest =>
    match hexPairByte h1 h2 with
    | some b => collapseAux (dst ++ [byteToChar b]) rest
    | none => collapseAux (dst ++ ['\\', 'x', h1, h2]) rest
  | '\\' :: 'c' :: [] => dst ++ ['\\', 'c']
  | '\\' :: 'c' :: c :: rest => collapseAux (cEscPush dst c) rest
  | '\\' :: 'r' :: rest => collapseAux (dst ++ ['\r']) rest
  | '\\' :: 'n' :: rest => collapseAux (dst ++ ['\n']) rest
  | '\\' :: 't' :: rest => collapseAux (dst ++ ['\t']) rest
  | '\\' :: b :: rest => collapseAux (dst ++ [b]) rest
  | c :: rest => collapseAux (dst ++ [c]) rest

/-- `collapse` (`src/escape.rs`) starting from an empty destination, as the
reader uses it on the description. -/
def collapse (cs : Line) : Line := collapseAux [] cs

/-- `read_line` (`src/read.rs`): next line, or `""` when exhausted. -/
def readLineD : List Line → Line × List Line
  | [] => ([], [])
  | l :: ls => (l, ls)

/-- `n` consecutive `read_line` pulls. -/
def readLinesN : Nat → List Line → List Line × List Line
  | 0, ls => ([], ls)
  | k + 1, ls =>
    let p := readLineD ls
    let q := readLinesN k p.2
    (p.1 :: q.1, q.2)

/-- The description lines joined with single `\n` separators
(`Reader::new`, `src/read.rs`, lines 44–50). -/
def joinNL : List Line → Line
  | [] => []
  | [l] => l
  | l :: ls => l ++ '\n' :: joinNL ls

/-- One palette line parsed as four space-delimited float fields
(`Reader::new`, `src/read.rs`, lines 56–64). -/
def parseColorLine (l : Line) : ℚ × ℚ × ℚ × ℚ :=
  let pr := floatFromChars l
  let pg := floatFromChars pr.2
  let pb := floatFromChars pg.2
  let pa := floatFromChars pb.2
  (pr.1, pg.1, pb.1, pa.1)

instance : DecidableEq (Line × List (ℚ × ℚ × ℚ × ℚ) × List Line) :=
  fun a b => instDecidableEqProd a b

/-- The metadata read by `Reader::new`. -/
structure Header where
  description : Line
  colors : List (ℚ × ℚ × ℚ × ℚ)
  brickCount : Option Nat
deriving DecidableEq

/-- `Reader::new` up to and including the palette: banner line, description
count (an `i32`, by inference) with the `> 1000` fatal check, description
lines, 64 color lines. Returns description, colors and remaining lines. -/
def readHeaderPre (lines : List Line) : Except IoErr (Line × List (ℚ × ℚ × ℚ × ℚ) × List Line) :=
  let pBanner := readLineD lines
  let pCount := readLineD pBanner.2
  let dcount : Int := (parseI32 pCount.1).getD 0
  if 1000 < dcount then .error (IoErr.invalidData "Description is unreasonably long")
  else
    let pDesc := readLinesN dcount.toNat pCount.2
    let pColors := readLinesN 64 pDesc.2
    .ok (collapse (joinNL pDesc.1), pColors.1.map parseColorLine, pColors.2)

/-- `Reader::new` (`src/read.rs`): header prefix, then the early brick-count
peek — a `Linecount` head line is consumed and recorded, a head line whose
classification fails aborts construction with that error, anything else is
left unconsumed. Returns the constructed metadata and the reader's
remaining line stream. -/
def readHeader (lines : List Line) : Except IoErr (Header × List Line) :=
  match readHeaderPre lines with
  | .error e => .error e
  | .ok (d, cs, rest) =>
    match rest with
    | [] => .ok ({ description := d, colors := cs, brickCount := none }, [])
    | l :: rest2 =>
      match parseBrickDataLine l with
      | .ok (.linecount n) => .ok ({ description := d, colors := cs, brickCount := some n }, rest2)
      | .error e => .error e
      | .ok _ => .ok ({ description := d, colors := cs, brickCount := none }, l :: rest2)

/-- The observable outcome of one `Reader::next` pull: a brick, a yielded
error, the explicit `panic!`, or end of iteration. -/
inductive RStep where
  | yieldBrick (b : Brick)
  | yieldErr (e : IoErr)
  | panicked
  | done
deriving DecidableEq

/-- The inner continuation-collection loop of `Reader::next` (`src/read.rs`,
lines 131–152): consume and append classified `Extra` lines, stop without
consuming on any other classified line or on end of input, and surface a
classification failure immediately, discarding the partial record. -/
def collectExtras (b : BrickBase) (acc : List Line) : List Line → RStep × List Line
  | [] => (.yieldBrick { base := b, unknownExtra := acc }, [])
  | l :: rest =>
    match parseBrickDataLine l with
    | .ok (.extra e) => collectExtras b (acc ++ [e]) rest
    | .error er => (.yieldErr er, rest)
    | .ok _ => (.yieldBrick { base := b, unknownExtra := acc }, l :: rest)

/-- `Reader::next` (`src/read.rs`, lines 111–156) as a step function on the
remaining lines and the `brick_count` field: `Linecount` lines are consumed
and recorded, an `Extra` line at the start of a pull is the source's
explicit panic, a base record collects its trailing extras. -/
def readerNext : List Line → Option Nat → RStep × List Line × Option Nat
  | [], bc => (.done, [], bc)
  | l :: rest, bc =>
    match parseBrickDataLine l with
    | .error e => (.yieldErr e, rest, bc)
    | .ok (.extra _) => (.panicked, rest, bc)
    | .ok (.linecount n) => readerNext rest (some n)
    | .ok (.base b) =>
      let p := collectExtras b [] rest
      (p.1, p.2, bc)

/-- Fuelled driver of the reader's iteration: pulls `readerNext` until end
of input (or panic), collecting every yielded item and the final
`brick_count`. `readerRun` supplies enough fuel for any input, so the
fuel-exhausted arm is unreachable (each non-`done` pull consumes at least
one line). -/
def readerRunF : Nat → List Line → Option Nat → List RStep × Option Nat
  | 0, _, bc => ([], bc)
  | fuel + 1, ls, bc =>
    match readerNext ls bc with
    | (.done, _, b2) => ([], b2)
    | (.panicked, _, b2) => ([.panicked], b2)
    | (.yieldBrick b, rest, b2) =>
      let p := readerRunF fuel rest b2
      (.yieldBrick b :: p.1, p.2)
    | (.yieldErr e, rest, b2) =>
      let p := readerRunF fuel rest b2
      (.yieldErr e :: p.1, p.2)

/-- Iterating the reader to exhaustion from a given stream state. -/
def readerRun (ls : List Line) (bc : Option Nat) : List RStep × Option Nat :=
  readerRunF ls.length ls bc

example : takeWordConsumeSpace "ab cd".toList = ("ab".toList, "cd".toList) := by decide
example : parseFloat "1.0".toList = some 1 := by decide
example : parseFloat "-2.5".toList = some (mkRat (-5) 2) := by decide
example : parseFloat "".toList = none := by decide
example : parseI32 "4000000000".toList = none := by decide
example : parseU64 "4000000000".toList = some 4000000000 := by decide
example :
    parseBrickDataLine "MyBrick\" 1.0 2.0 3.0 0 1 5 Print1 0 0 1 1 1".toList =
      .ok (.base
        { uiName := "MyBrick".toList
          position := (1, 2, 3)
          angle := 0
          isBaseplate := true
          colorIndex := 5
          print := "Print1".toList
          colorFx := 0
          shapeFx := 0
          raycasting := true
          collision := true
          rendering := true }) := by decide
example :
    parseBrickDataLine "MyBrick \"1.0 2.0 3.0 0 1 5 Print1 0 0 1 1 1".toList =
      .error (IoErr.invalidData "Invalid brick line") := by decide
example : parseBrickDataLine "Linecount 500".toList = .ok (.linecount 500) := by decide
example : parseBrickDataLine "+-OWNER 123".toList = .ok (.extra "+-OWNER 123".toList) := by
  decide
example : collapse "\\x41".toList = [byteToChar 0x41] := by decide
example : collapse "\\x41".toList = ['A'] := by decide
example : collapse "\\x4".toList = "\\x4".toList := by decide
example : collapse "\\".toList = "\\".toList := by decide
example : collapse "\\c0".toList = [Char.ofNat 2, Char.ofNat 1] := by decide
example : collapse "a\\c0".toList = ['a', Char.ofNat 1] := by decide
example : collapse "\\cq".toList = "\\cq".toList := by decide
example : collapse "\\x+5".toList = [Char.ofNat 5] := by decide
example : collapse "hi\\nho".toList = "hi\nho".toList := by decide
example : parseColorLine "1 2".toList = (1, 2, 0, 0) := by decide
example :
    readHeader ([[], "4000000000".toList] : List Line) =
      .ok ({ description := [], colors := List.replicate 64 (0, 0, 0, 0), brickCount := none },
        []) := by decide
example :
    readHeader (([[], "1001".toList] : List Line)) =
      .error (IoErr.invalidData "Description is unreasonably long") := by decide
example :
    readHeader (([[], "0".toList] ++ List.replicate 64 ([] : Line) ++ ["noquote".toList])) =
      .error (IoErr.invalidData "Invalid brick line") := by decide
example :
    readHeader (([[], "0".toList] ++ List.replicate 64 ([] : Line) ++ ["Linecount 7".toList])) =
      .ok ({ description := [], colors := List.replicate 64 (0, 0, 0, 0), brickCount := some 7 },
        []) := by decide
example :
    readHeader (([[], "2".toList, "Hello".toList, "World".toList]
        ++ List.replicate 64 ([] : Line))) =
      .ok ({ description := "Hello\nWorld".toList
             colors := List.replicate 64 (0, 0, 0, 0)
             brickCount := none }, []) := by decide
example :
    readerRun ["X\" ".toList, "+-a".toList, "+-b".toList, "Y\" ".toList] none =
      ([.yieldBrick { base :=
          { uiName := "X".toList, position := (0, 0, 0), angle := 0, isBaseplate := false,
            colorIndex := 0, print := [], colorFx := 0, shapeFx := 0, raycasting := false,
            collision := false, rendering := false }, unknownExtra := ["+-a".toList, "+-b".toList] },
        .yieldBrick { base :=
          { uiName := "Y".toList, position := (0, 0, 0), angle := 0, isBaseplate := false,
            colorIndex := 0, print := [], colorFx := 0, shapeFx := 0, raycasting := false,
            collision := false, rendering := false }, unknownExtra := [] }], none) := by decide
example : readerRun ["+-a".toList] none = ([.panicked], none) := by decide
example : readerRun ["Linecount 5".toList, "+-a".toList] none = ([.panicked], some 5) := by decide
example : readerRun ["Linecount 500".toList] none = ([], some 500) := by decide

/-! ### Helper lemmas -/

theorem takeWordConsumeSpace_eq (cs : Line) :
    takeWordConsumeSpace cs
      = (cs.takeWhile (fun c => c != ' '), (cs.dropWhile (fun c => c != ' ')).drop 1) := by
  induction cs with
  | nil => rfl
  | cons c rest ih =>
    by_cases hc : c = ' '
    · subst hc
      simp [takeWordConsumeSpace, List.takeWhile_cons, List.dropWhile_cons]
    · simp [takeWordConsumeSpace, hc, List.takeWhile_cons, List.dropWhile_cons, ih]

theorem parseBrick_extra {cs : Line} (h : startsWithL extraDataPfx cs = true) :
    parseBrickDataLine cs = .ok (.extra cs) := by
  simp [parseBrickDataLine, h]

theorem parseBrick_err {cs : Line} {e : IoErr} (h : parseBrickDataLine cs = .error e) :
    e = IoErr.invalidData "Invalid brick line" := by
  unfold parseBrickDataLine at h
  split at h
  · simp at h
  · split at h
    · simp at h
    · split at h
      · exact (Except.error.inj h).symm
      · split at h
        · simp at h
        · exact (Except.error.inj h).symm

/-! ### C1 -/

/-- C1: the claim's record line `MyBrick "1.0 2.0 3.0 0 1 5 Print1 0 0 1 1 1`
(space before the quote, none after it) does not parse to a record at all:
the base-record parser requires a space immediately after the first quote
and fails with the fatal "Invalid brick line" error on this line. -/
theorem c1_record_line_counterexample :
    parseBrickDataLine "MyBrick \"1.0 2.0 3.0 0 1 5 Print1 0 0 1 1 1".toList
      = .error (IoErr.invalidData "Invalid brick line") := by decide

/-- C1 (amended): with the quote placed directly after the label — the line
`MyBrick" 1.0 2.0 3.0 0 1 5 Print1 0 0 1 1 1` — the base-record parser
yields label `MyBrick`, position `(1.0, 2.0, 3.0)`, orientation `0`,
`is_special_base` true, palette index `5`, print name `Print1`, color and
shape effects `0`, and the three flags true; and each field token is all
characters up to and consuming the next single space, or to end of line. -/
theorem c1_record_line_amended :
    (∀ cs : Line, takeWordConsumeSpace cs
        = (cs.takeWhile (fun c => c != ' '), (cs.dropWhile (fun c => c != ' ')).drop 1))
    ∧ parseBrickDataLine "MyBrick\" 1.0 2.0 3.0 0 1 5 Print1 0 0 1 1 1".toList
        = .ok (.base
          { uiName := "MyBrick".toList
            position := (1, 2, 3)
            angle := 0
            isBaseplate := true
            colorIndex := 5
            print := "Print1".toList
            colorFx := 0
            shapeFx := 0
            raycasting := true
            collision := true
            rendering := true }) :=
  ⟨takeWordConsumeSpace_eq, by decide⟩

/-! ### C7 -/

/-- C7: the claim says `\x` followed by two characters that are not a valid
two-digit hex number passes through literally. The two-character suffix
`+5` is not two hex digits (`+` is not a hex digit), yet the collapser does
not pass it through: `u8::from_str_radix` accepts an optional leading `+`,
so `\x+5` collapses to the table entry for byte 5. -/
theorem c7_plus_hex_counterexample :
    hexDigitVal '+' = none
    ∧ collapse "\\x+5".toList = [byteToChar 5]
    ∧ collapse "\\x+5".toList ≠ "\\x+5".toList :=
  ⟨by decide, by decide, by decide⟩

/-- C7 (amended): the escape collapser is total; it sends `\x41` to the
byte-to-codepoint table entry for byte `0x41`; `\x` followed by fewer than
two characters, or by a two-character suffix rejected by the radix-16 byte
parse (which accepts two hex digits, or a leading `+` and one hex digit),
passes through as literal text (so `\x4` collapses to `\x4`); and a lone
trailing backslash collapses to itself. -/
theorem c7_hex_escape :
    collapse "\\x41".toList = [byteToChar 0x41]
    ∧ collapse "\\x4".toList = "\\x4".toList
    ∧ (∀ h1 : Char, collapse ['\\', 'x', h1] = ['\\', 'x', h1])
    ∧ collapse ['\\', 'x'] = ['\\', 'x']
    ∧ collapse ['\\'] = ['\\']
    ∧ (∀ h1 h2 : Char, hexPairByte h1 h2 = none →
        collapse ['\\', 'x', h1, h2] = ['\\', 'x', h1, h2]) := by
  refine ⟨by decide, by decide, fun h1 => rfl, by decide, by decide, fun h1 h2 hn => ?_⟩
  simp [collapse, collapseAux, hn]

/-- C7 witness: the general invalid-hex-pair clause applied at `\xZZ`. -/
theorem c7_hex_escape_witness :
    hexPairByte 'Z' 'Z' = none ∧ collapse ['\\', 'x', 'Z', 'Z'] = ['\\', 'x', 'Z', 'Z'] :=
  ⟨by decide, c7_hex_escape.2.2.2.2.2 'Z' 'Z' (by decide)⟩

/-! ### C8 -/

/-- C8: every recognized `\c` suffix (`r`, `p`, `o`, `0`–`9`) collapses to a
single control code in `[1, 23]`, with `\c0` emitting an extra leading code
`2` exactly when nothing has been collapsed into the output yet, and an
unrecognized suffix passing through as literal `\c` plus the character. -/
theorem c8_control_escapes :
    (∀ c, c ∈ ['r', 'p', 'o', '0', '1', '2', '3', '4', '5', '6', '7', '8', '9'] →
      ∃ k, 1 ≤ k ∧ k ≤ 23 ∧ ∀ dst rest, collapseAux dst ('\\' :: 'c' :: c :: rest)
        = collapseAux
            (dst ++ (if c = '0' ∧ dst = [] then [Char.ofNat 2] else []) ++ [Char.ofNat k])
            rest)
    ∧ (∀ c, c ∉ ['r', 'p', 'o', '0', '1', '2', '3', '4', '5', '6', '7', '8', '9'] →
      ∀ dst rest, collapseAux dst ('\\' :: 'c' :: c :: rest)
        = collapseAux (dst ++ ['\\', 'c', c]) rest) := by
  constructor
  · intro c hc
    fin_cases hc
    · exact ⟨15, by norm_num, by norm_num, fun dst rest => by rcases dst <;> simp [collapseAux, cEscPush]⟩
    · exact ⟨16, by norm_num, by norm_num, fun dst rest => by rcases dst <;> simp [collapseAux, cEscPush]⟩
    · exact ⟨17, by norm_num, by norm_num, fun dst rest => by rcases dst <;> simp [collapseAux, cEscPush]⟩
    · exact ⟨1, by norm_num, by norm_num, fun dst rest => by rcases dst <;> simp [collapseAux, cEscPush]⟩
    · exact ⟨2, by norm_num, by norm_num, fun dst rest => by rcases dst <;> simp [collapseAux, cEscPush]⟩
    · exact ⟨3, by norm_num, by norm_num, fun dst rest => by rcases dst <;> simp [collapseAux, cEscPush]⟩
    · exact ⟨4, by norm_num, by norm_num, fun dst rest => by rcases dst <;> simp [collapseAux, cEscPush]⟩
    · exact ⟨5, by norm_num, by norm_num, fun dst rest => by rcases dst <;> simp [collapseAux, cEscPush]⟩
    · exact ⟨6, by norm_num, by norm_num, fun dst rest => by rcases dst <;> simp [collapseAux, cEscPush]⟩
    · exact ⟨7, by norm_num, by norm_num, fun dst rest => by rcases dst <;> simp [collapseAux, cEscPush]⟩
    · exact ⟨0xb, by norm_num, by norm_num, fun dst rest => by rcases dst <;> simp [collapseAux, cEscPush]⟩
    · exact ⟨0xc, by norm_num, by norm_num, fun dst rest => by rcases dst <;> simp [collapseAux, cEscPush]⟩
    · exact ⟨0xe, by norm_num, by norm_num, fun dst rest => by rcases dst <;> simp [collapseAux, cEscPush]⟩
  · intro c hc dst rest
    simp only [List.mem_cons, not_or] at hc
    obtain ⟨n1, n2, n3, n4, n5, n6, n7, n8, n9, n10, n11, n12, n13, -⟩ := hc
    simp [collapseAux, cEscPush, n1, n2, n3, n4, n5, n6, n7, n8, n9, n10, n11, n12, n13]

/-- C8 witness: the pass-through clause applied to the unrecognized suffix
`q` on an empty output. -/
theorem c8_control_escapes_witness :
    collapseAux [] ('\\' :: 'c' :: 'q' :: []) = [] ++ ['\\', 'c', 'q'] :=
  c8_control_escapes.2 'q' (by decide) [] []

/-! ### Reader iteration lemmas -/

theorem collectExtras_ne_done (b : BrickBase) (acc : List Line) (ls : List Line) :
    (collectExtras b acc ls).1 ≠ .done := by
  induction ls generalizing acc with
  | nil => simp [collectExtras]
  | cons l t ih =>
    cases hp : parseBrickDataLine l with
    | error e => simp [collectExtras, hp]
    | ok bl =>
      cases bl with
      | base b2 => simp [collectExtras, hp]
      | extra el =>
        simp only [collectExtras, hp]
        exact ih (acc ++ [el])
      | linecount m => simp [collectExtras, hp]

theorem collectExtras_rest_le (b : BrickBase) (acc : List Line) (ls : List Line) :
    (collectExtras b acc ls).2.length ≤ ls.length := by
  induction ls generalizing acc with
  | nil => simp [collectExtras]
  | cons l t ih =>
    cases hp : parseBrickDataLine l with
    | error e =>
      simp [collectExtras, hp]
    | ok bl =>
      cases bl with
      | base b2 => simp [collectExtras, hp]
      | extra el =>
        simp only [collectExtras, hp, List.length_cons]
        exact Nat.le_succ_of_le (ih (acc ++ [el]))
      | linecount m => simp [collectExtras, hp]

theorem readerNext_ne_done_lt (ls : List Line) (bc : Option Nat)
    (h : (readerNext ls bc).1 ≠ .done) : (readerNext ls bc).2.1.length < ls.length := by
  induction ls generalizing bc with
  | nil => simp [readerNext] at h
  | cons l t ih =>
    cases hp : parseBrickDataLine l with
    | error e => simp [readerNext, hp]
    | ok bl =>
      cases bl with
      | base b =>
        simp only [readerNext, hp, List.length_cons]
        exact Nat.lt_succ_of_le (collectExtras_rest_le b [] t)
      | extra el => simp [readerNext, hp]
      | linecount m =>
        simp only [readerNext, hp] at h ⊢
        exact Nat.lt_succ_of_lt (ih (some m) h)

theorem readerRunF_congr (f1 : Nat) : ∀ (f2 : Nat) (ls : List Line) (bc : Option Nat),
    ls.length ≤ f1 → ls.length ≤ f2 → readerRunF f1 ls bc = readerRunF f2 ls bc := by
  induction f1 with
  | zero =>
    intro f2 ls bc h1 h2
    have hls : ls = [] := List.eq_nil_of_length_eq_zero (Nat.le_zero.mp h1)
    subst hls
    cases f2 with
    | zero => rfl
    | succ f2 => simp [readerRunF, readerNext]
  | succ f1 ih =>
    intro f2 ls bc h1 h2
    cases ls with
    | nil =>
      cases f2 with
      | zero => simp [readerRunF, readerNext]
      | succ f2 => simp [readerRunF, readerNext]
    | cons l t =>
      cases f2 with
      | zero => simp at h2
      | succ f2 =>
        simp only [List.length_cons] at h1 h2
        rcases hn : readerNext (l :: t) bc with ⟨s, rest, b2⟩
        have hrest : s ≠ .done → rest.length ≤ t.length := by
          intro hs
          have := readerNext_ne_done_lt (l :: t) bc (by rw [hn]; exact hs)
          rw [hn] at this
          simpa [Nat.lt_succ_iff] using this
        cases s with
        | done => simp [readerRunF, hn]
        | panicked => simp [readerRunF, hn]
        | yieldBrick b =>
          have hle := hrest (by simp)
          simp only [readerRunF, hn]
          rw [ih f2 rest b2 (by omega) (by omega)]
        | yieldErr e =>
          have hle := hrest (by simp)
          simp only [readerRunF, hn]
          rw [ih f2 rest b2 (by omega) (by omega)]

theorem readerRun_next (ls : List Line) (bc : Option Nat) :
    readerRun ls bc =
      match readerNext ls bc with
      | (.done, _, b2) => ([], b2)
      | (.panicked, _, b2) => ([.panicked], b2)
      | (.yieldBrick b, rest, b2) =>
        (.yieldBrick b :: (readerRun rest b2).1, (readerRun rest b2).2)
      | (.yieldErr e, rest, b2) =>
        (.yieldErr e :: (readerRun rest b2).1, (readerRun rest b2).2) := by
  cases ls with
  | nil => simp [readerRun, readerRunF, readerNext]
  | cons l t =>
    show readerRunF (t.length + 1) (l :: t) bc = _
    rcases hn : readerNext (l :: t) bc with ⟨s, rest, b2⟩
    have hrest : s ≠ .done → rest.length ≤ t.length := by
      intro hs
      have := readerNext_ne_done_lt (l :: t) bc (by rw [hn]; exact hs)
      rw [hn] at this
      simpa [Nat.lt_succ_iff] using this
    cases s with
    | done => simp [readerRunF, hn]
    | panicked => simp [readerRunF, hn]
    | yieldBrick b =>
      have hle := hrest (by simp)
      simp only [readerRunF, hn]
      rw [show readerRunF t.length rest b2 = readerRun rest b2 from
        readerRunF_congr t.length rest.length rest b2 (by omega) le_rfl]
    | yieldErr e =>
      have hle := hrest (by simp)
      simp only [readerRunF, hn]
      rw [show readerRunF t.length rest b2 = readerRun rest b2 from
        readerRunF_congr t.length rest.length rest b2 (by omega) le_rfl]

/-! ### Base-record classification case lemmas -/

theorem parseBrick_noquote {cs : Line}
    (h1 : startsWithL extraDataPfx cs = false) (h2 : startsWithL linecountPfx cs = false)
    (hd : cs.dropWhile (fun c => c != '"') = []) :
    parseBrickDataLine cs = .error (IoErr.invalidData "Invalid brick line") := by
  simp [parseBrickDataLine, h1, h2, hd]

theorem parseBrick_space {cs q : Line} {rest : Line}
    (h1 : startsWithL extraDataPfx cs = false) (h2 : startsWithL linecountPfx cs = false)
    (hd : cs.dropWhile (fun c => c != '"') = q ++ ' ' :: rest) (hq : q.length = 1) :
    parseBrickDataLine cs
      = .ok (.base (parseBaseFields (cs.takeWhile (fun c => c != '"')) rest)) := by
  rcases q with _ | ⟨c, q'⟩
  · simp at hq
  · rcases q' with _ | _
    · simp only [List.cons_append, List.nil_append] at hd
      simp [parseBrickDataLine, h1, h2, hd]
    · simp at hq

theorem parseBrick_nospace {cs : Line} {q : Char} {after : Line}
    (h1 : startsWithL extraDataPfx cs = false) (h2 : startsWithL linecountPfx cs = false)
    (hd : cs.dropWhile (fun c => c != '"') = q :: after)
    (hns : ∀ rest, after ≠ ' ' :: rest) :
    parseBrickDataLine cs = .error (IoErr.invalidData "Invalid brick line") := by
  simp only [parseBrickDataLine, h1, h2, Bool.false_eq_true, if_false, hd]

theorem mem_quote_of_dropWhile_cons {cs : Line} {q : Char} {after : Line}
    (hd : cs.dropWhile (fun c => c != '"') = q :: after) : '"' ∈ cs := by
  by_contra hnm
  have hall : ∀ x ∈ cs, (x != '"') = true := by
    intro x hx
    simp only [bne_iff_ne, ne_eq]
    intro he
    exact hnm (he ▸ hx)
  have := List.dropWhile_eq_nil_iff.mpr hall
  simp [hd] at this

/-! ### C2 -/

/-- C2: a line classified as a base record (neither `+-` nor `Linecount `
prefixed) fails with the fatal "Invalid brick line" error exactly when it
has no double quote or the quote is not immediately followed by a space
(including when nothing follows the quote); this is the only error a
classified line can produce, and whenever a quote-plus-space is present the
line parses to a base record, every other malformed field defaulting
silently; the palette stage of the header never raises an error at all (the
header prefix can only fail with the description-length error). -/
theorem c2_base_record_fatal_iff (cs : Line)
    (h1 : startsWithL extraDataPfx cs = false)
    (h2 : startsWithL linecountPfx cs = false) :
    (parseBrickDataLine cs = .error (IoErr.invalidData "Invalid brick line") ↔
      ('"' ∉ cs ∨ ∀ rest, (cs.dropWhile (fun c => c != '"')).drop 1 ≠ ' ' :: rest))
    ∧ (∀ e, parseBrickDataLine cs = .error e → e = IoErr.invalidData "Invalid brick line")
    ∧ (('"' ∈ cs ∧ ∃ rest, (cs.dropWhile (fun c => c != '"')).drop 1 = ' ' :: rest) →
        ∃ b, parseBrickDataLine cs = .ok (.base b))
    ∧ (∀ (lines : List Line) (e : IoErr), readHeaderPre lines = .error e →
        e = IoErr.invalidData "Description is unreasonably long") := by
  have hpre : ∀ (lines : List Line) (e : IoErr), readHeaderPre lines = .error e →
      e = IoErr.invalidData "Description is unreasonably long" := by
    intro lines e h
    simp only [readHeaderPre] at h
    split at h
    · exact (Except.error.inj h).symm
    · exact absurd h (by simp)
  refine ⟨?_, fun e he => parseBrick_err he, ?_, hpre⟩
  · rcases hd : cs.dropWhile (fun c => c != '"') with _ | ⟨q, after⟩
    · have hnm : '"' ∉ cs := by
        intro hm
        have := List.dropWhile_eq_nil_iff.mp hd '"' hm
        simp at this
      simp [parseBrick_noquote h1 h2 hd, hnm]
    · have hm : '"' ∈ cs := mem_quote_of_dropWhile_cons hd
      have hdrop : (cs.dropWhile (fun c => c != '"')).drop 1 = after := by rw [hd]; rfl
      rcases after with _ | ⟨c, rest⟩
      · have hns : ∀ r : Line, ([] : Line) ≠ ' ' :: r := fun r => by simp
        simp [parseBrick_nospace h1 h2 hd hns, hm, hdrop]
      · by_cases hc : c = ' '
        · subst hc
          have hsp := parseBrick_space h1 h2 (q := [q]) (by simpa using hd) rfl
          constructor
          · intro h
            rw [hsp] at h
            exact absurd h (by simp)
          · intro hor
            exfalso
            rcases hor with hnm | hall
            · exact hnm hm
            · exact hall rest rfl
        · have hns : ∀ r : Line, c :: rest ≠ ' ' :: r := by
            intro r he
            exact hc (List.cons.inj he).1
          simp [parseBrick_nospace h1 h2 hd hns, hm, hdrop, hns]
  · rintro ⟨hm, rest, hdrop⟩
    rcases hd : cs.dropWhile (fun c => c != '"') with _ | ⟨q, after⟩
    · rw [hd] at hdrop
      simp at hdrop
    · rw [hd] at hdrop
      simp only [List.drop_succ_cons, List.drop_zero] at hdrop
      subst hdrop
      exact ⟨_, parseBrick_space h1 h2 (q := [q]) (by simpa using hd) rfl⟩

/-- C2 witness: a quoteless base line is fatal, and a quote-plus-space line
with every numeric field malformed parses to a record. -/
theorem c2_base_record_fatal_iff_witness :
    parseBrickDataLine "AB".toList = .error (IoErr.invalidData "Invalid brick line")
    ∧ ∃ b, parseBrickDataLine "A\" x y".toList = .ok (.base b) :=
  ⟨(c2_base_record_fatal_iff "AB".toList (by decide) (by decide)).1.mpr (Or.inl (by decide)),
    (c2_base_record_fatal_iff "A\" x y".toList (by decide) (by decide)).2.2.1
      ⟨by decide, "x y".toList, by decide⟩⟩

/-! ### Palette and header lemmas -/

theorem readLinesN_eq (k : Nat) : ∀ ls : List Line,
    readLinesN k ls = (ls.take k ++ List.replicate (k - ls.length) [], ls.drop k) := by
  induction k with
  | zero => intro ls; simp [readLinesN]
  | succ k ih =>
    intro ls
    cases ls with
    | nil => simp [readLinesN, readLineD, ih [], List.replicate_succ]
    | cons l t => simp [readLinesN, readLineD, ih t, Nat.succ_sub_succ]

theorem readLinesN_len (k : Nat) (ls : List Line) : (readLinesN k ls).1.length = k := by
  rw [readLinesN_eq]
  simp only [List.length_append, List.length_take, List.length_replicate]
  omega

/-! ### C5 -/

/-- C5: whenever the header prefix parses, the palette has exactly 64
entries; the palette stage reads one line per entry, substituting an empty
line when the input is exhausted, and an empty or partially parsable line
yields zero components (so missing trailing color lines give all-zero
entries, never an error or a shorter palette). -/
theorem c5_palette_always_64 :
    (∀ lines d cs rest, readHeaderPre lines = .ok (d, cs, rest) → cs.length = 64)
    ∧ (∀ ls : List Line, (readLinesN 64 ls).1.map parseColorLine
        = (ls.take 64).map parseColorLine
          ++ List.replicate (64 - ls.length) ((0 : ℚ), (0 : ℚ), (0 : ℚ), (0 : ℚ)))
    ∧ parseColorLine [] = (0, 0, 0, 0)
    ∧ parseColorLine "1 2".toList = (1, 2, 0, 0) := by
  have hzero : parseColorLine [] = (0, 0, 0, 0) := by decide
  refine ⟨?_, ?_, hzero, by decide⟩
  · intro lines d cs rest hpre
    simp only [readHeaderPre] at hpre
    split at hpre
    · simp at hpre
    · simp only [Except.ok.injEq, Prod.mk.injEq] at hpre
      obtain ⟨-, hcs, -⟩ := hpre
      rw [← hcs, List.length_map, readLinesN_len]
  · intro ls
    rw [readLinesN_eq]
    simp [List.map_replicate, hzero]

/-- C5 witness: the header-prefix clause applied to the empty input. -/
theorem c5_palette_always_64_witness :
    (List.replicate 64 ((0 : ℚ), (0 : ℚ), (0 : ℚ), (0 : ℚ))).length = 64 :=
  c5_palette_always_64.1 [] [] (List.replicate 64 ((0 : ℚ), (0 : ℚ), (0 : ℚ), (0 : ℚ))) []
    (by decide)

/-! ### C6 -/

/-- C6: the claim reads the description-length line as an *unsigned*
integer. On the line `4000000000` the unsigned reading gives a value above
1000, so the claim predicates a fatal "description too long" error; the
code parses the line as an `i32`, the out-of-range text defaults to 0, and
construction succeeds. -/
theorem c6_unsigned_parse_counterexample :
    1000 < (parseU64 "4000000000".toList).getD 0
    ∧ readHeader [[], "4000000000".toList]
        = .ok ({ description := []
                 colors := List.replicate 64 (0, 0, 0, 0)
                 brickCount := none }, []) :=
  ⟨by decide, by decide⟩

/-- C6 (amended): the description-length line is parsed as a *signed 32-bit*
integer, with unparsable text (including text outside the `i32` range)
defaulting to 0; header parsing fails with the "description too long" error
exactly when the parsed value exceeds 1000, regardless of any other line
(so `1001` is always fatal and `1000` never produces this error). -/
theorem c6_desc_too_long_iff (lines : List Line) :
    readHeader lines = .error (IoErr.invalidData "Description is unreasonably long")
      ↔ 1000 < ((parseI32 (readLineD (readLineD lines).2).1).getD 0 : Int) := by
  by_cases hd : 1000 < ((parseI32 (readLineD (readLineD lines).2).1).getD 0 : Int)
  · simp [readHeader, readHeaderPre, hd]
  · simp only [readHeader, readHeaderPre, hd, if_false]
    constructor
    · intro h
      exfalso
      split at h
      · exact absurd h (by simp)
      · split at h
        · exact absurd h (by simp)
        · rename_i heq
          have := parseBrick_err heq
          rw [Except.error.injEq] at h
          rw [h] at this
          simp at this
        · exact absurd h (by simp)
    · intro h
      exact h.elim

/-- C6 witness: the amended equivalence applied to a header whose
description-length line is `1001`. -/
theorem c6_desc_too_long_iff_witness :
    readHeader [[], "1001".toList]
      = .error (IoErr.invalidData "Description is unreasonably long") :=
  (c6_desc_too_long_iff [[], "1001".toList]).mpr (by decide)

/-! ### C10 -/

/-- C10: the claim says any first post-header line that is not a count
redeclaration is left unconsumed and construction completes. On a
post-header line with no quote character, classification fails, and
`Reader::new` instead consumes the peeked error and aborts construction
with the "Invalid brick line" error. -/
theorem c10_peek_error_counterexample :
    parseBrickDataLine "noquote".toList = .error (IoErr.invalidData "Invalid brick line")
    ∧ readHeader ([[], "0".toList] ++ List.replicate 64 ([] : Line) ++ ["noquote".toList])
        = .error (IoErr.invalidData "Invalid brick line") :=
  ⟨by decide, by decide⟩

/-- C10 (amended): after the header prefix, the first remaining line is
peeked through record-stream classification: a count redeclaration is
consumed and recorded as the early declared count; a line whose
classification fails aborts construction with that error; any other line is
left unconsumed (construction completes with it still first in the record
stream and no early count). -/
theorem c10_header_peek_amended (lines : List Line) (d : Line)
    (cs : List (ℚ × ℚ × ℚ × ℚ)) (rest : List Line)
    (hpre : readHeaderPre lines = .ok (d, cs, rest)) :
    (rest = [] →
      readHeader lines = .ok ({ description := d, colors := cs, brickCount := none }, []))
    ∧ (∀ l rest2, rest = l :: rest2 →
        (∀ n, parseBrickDataLine l = .ok (.linecount n) →
          readHeader lines
            = .ok ({ description := d, colors := cs, brickCount := some n }, rest2))
        ∧ (∀ e, parseBrickDataLine l = .error e → readHeader lines = .error e)
        ∧ (∀ bl, parseBrickDataLine l = .ok bl → (∀ n, bl ≠ .linecount n) →
            readHeader lines
              = .ok ({ description := d, colors := cs, brickCount := none }, l :: rest2))) := by
  constructor
  · intro hrest
    subst hrest
    simp [readHeader, hpre]
  · intro l rest2 hrest
    subst hrest
    refine ⟨?_, ?_, ?_⟩
    · intro n hn
      simp [readHeader, hpre, hn]
    · intro e he
      simp [readHeader, hpre, he]
    · intro bl hbl hnl
      rcases bl with b | el | n
      · simp [readHeader, hpre, hbl]
      · simp [readHeader, hpre, hbl]
      · exact absurd rfl (hnl n)

/-! ### C3 -/

/-- C3: a record stream of a base record, two `+-` continuation lines, then
another base record groups into exactly two records: the first carrying the
two continuation lines verbatim, the second carrying none; the declared
count is untouched. -/
theorem c3_grouping_two_continuations (l1 e1 e2 l2 : Line) (b1 b2 : BrickBase)
    (bc : Option Nat)
    (h1 : parseBrickDataLine l1 = .ok (.base b1))
    (h2 : parseBrickDataLine l2 = .ok (.base b2))
    (he1 : startsWithL extraDataPfx e1 = true)
    (he2 : startsWithL extraDataPfx e2 = true) :
    readerRun [l1, e1, e2, l2] bc
      = ([.yieldBrick { base := b1, unknownExtra := [e1, e2] },
          .yieldBrick { base := b2, unknownExtra := [] }], bc) := by
  simp [readerRun, readerRunF, readerNext, collectExtras, h1, h2,
    parseBrick_extra he1, parseBrick_extra he2]

/-- C3 witness: the grouping applied to two concrete minimal base records
and two concrete continuation lines. -/
theorem c3_grouping_two_continuations_witness :
    readerRun ["X\" ".toList, "+-a".toList, "+-b".toList, "Y\" ".toList] none
      = ([.yieldBrick
            { base :=
                { uiName := ['X'], position := (0, 0, 0), angle := 0, isBaseplate := false,
                  colorIndex := 0, print := [], colorFx := 0, shapeFx := 0, raycasting := false,
                  collision := false, rendering := false }
              unknownExtra := ["+-a".toList, "+-b".toList] },
          .yieldBrick
            { base :=
                { uiName := ['Y'], position := (0, 0, 0), angle := 0, isBaseplate := false,
                  colorIndex := 0, print := [], colorFx := 0, shapeFx := 0, raycasting := false,
                  collision := false, rendering := false }
              unknownExtra := [] }], none) :=
  c3_grouping_two_continuations "X\" ".toList "+-a".toList "+-b".toList "Y\" ".toList
    _ _ none (by decide) (by decide) (by decide) (by decide)

/-! ### C4 -/

/-- C4: the public record sequence is not total — whenever the first
classified line consumed by a pull is a continuation line (`+-` prefix),
possibly after any number of count-redeclaration lines consumed in the same
pull, `Reader::next` hits its explicit panic instead of returning a record,
an error, or end of sequence. -/
theorem c4_continuation_start_panics (pre : List Line) (l : Line) (rest : List Line)
    (bc : Option Nat)
    (hpre : ∀ p ∈ pre, ∃ n, parseBrickDataLine p = .ok (.linecount n))
    (hl : startsWithL extraDataPfx l = true) :
    (readerNext (pre ++ l :: rest) bc).1 = .panicked := by
  induction pre generalizing bc with
  | nil => simp [readerNext, parseBrick_extra hl]
  | cons p ps ih =>
    obtain ⟨m, hp⟩ := hpre p (List.mem_cons_self p ps)
    simp only [List.cons_append, readerNext, hp]
    exact ih (some m) (fun q hq => hpre q (List.mem_cons_of_mem p hq))

/-- C4 witness: a `+-` line directly after a `Linecount` line consumed in
the same pull panics (so in particular a `+-` first post-header line does). -/
theorem c4_continuation_start_panics_witness :
    (readerNext (["Linecount 5".toList] ++ "+-x".toList :: []) none).1 = .panicked :=
  c4_continuation_start_panics ["Linecount 5".toList] "+-x".toList [] none
    (fun p hp => by
      rw [List.mem_singleton] at hp
      subst hp
      exact ⟨5, by decide⟩)
    (by decide)

/-! ### C9 -/

theorem parseBrick_linecountLine {w : Line} {n : Nat} (hw : parseU64 w = some n) :
    parseBrickDataLine (linecountPfx ++ w) = .ok (.linecount n) := by
  have h1 : startsWithL extraDataPfx (linecountPfx ++ w) = false := rfl
  have h2 : startsWithL linecountPfx (linecountPfx ++ w) = true := rfl
  simp [parseBrickDataLine, h1, h2, List.drop_left, hw]

theorem collectExtras_append_lc {lc : Line} {n : Nat}
    (hlc : parseBrickDataLine lc = .ok (.linecount n)) (b : BrickBase) :
    ∀ acc ls, collectExtras b acc (ls ++ [lc])
      = ((collectExtras b acc ls).1, (collectExtras b acc ls).2 ++ [lc]) := by
  intro acc ls
  induction ls generalizing acc with
  | nil => simp [collectExtras, hlc]
  | cons l t ih =>
    cases hp : parseBrickDataLine l with
    | error e => simp [collectExtras, hp]
    | ok bl =>
      cases bl with
      | base b2 => simp [collectExtras, hp]
      | linecount m => simp [collectExtras, hp]
      | extra el =>
        simp only [List.cons_append, collectExtras, hp]
        exact ih (acc ++ [el])

theorem readerNext_append_lc {lc : Line} {n : Nat}
    (hlc : parseBrickDataLine lc = .ok (.linecount n)) :
    ∀ ls bc, readerNext (ls ++ [lc]) bc
      = if (readerNext ls bc).1 = .done then (.done, [], some n)
        else ((readerNext ls bc).1, (readerNext ls bc).2.1 ++ [lc],
          (readerNext ls bc).2.2) := by
  intro ls
  induction ls with
  | nil => intro bc; simp [readerNext, hlc]
  | cons l t ih =>
    intro bc
    cases hp : parseBrickDataLine l with
    | error e => simp [readerNext, hp]
    | ok bl =>
      cases bl with
      | extra el => simp [readerNext, hp]
      | linecount m =>
        simp only [List.cons_append, readerNext, hp]
        exact ih (some m)
      | base b =>
        simp [readerNext, hp, collectExtras_append_lc hlc b [] t,
          collectExtras_ne_done b [] t]

/-- C9: appending a `Linecount` redeclaration line after the whole record
stream leaves the yielded record sequence unchanged — the line is consumed
by iteration without producing a record — and once the sequence is
exhausted the declared-count accessor holds that line's value (so a
trailing `Linecount 500` makes it 500). -/
theorem c9_trailing_linecount (w : Line) (n : Nat) (hw : parseU64 w = some n)
    (ls : List Line) (bc : Option Nat)
    (hnp : RStep.panicked ∉ (readerRun ls bc).1) :
    readerRun (ls ++ [linecountPfx ++ w]) bc = ((readerRun ls bc).1, some n) := by
  have hlc : parseBrickDataLine (linecountPfx ++ w) = .ok (.linecount n) :=
    parseBrick_linecountLine hw
  suffices h : ∀ k (ls : List Line) (bc : Option Nat), ls.length ≤ k →
      RStep.panicked ∉ (readerRun ls bc).1 →
      readerRun (ls ++ [linecountPfx ++ w]) bc = ((readerRun ls bc).1, some n) from
    h ls.length ls bc le_rfl hnp
  intro k
  induction k with
  | zero =>
    intro ls bc hl hnp2
    have hls : ls = [] := List.eq_nil_of_length_eq_zero (Nat.le_zero.mp hl)
    subst hls
    simp [readerRun, readerRunF, readerNext, hlc]
  | succ k ih =>
    intro ls bc hl hnp2
    rw [readerRun_next (ls ++ [linecountPfx ++ w]), readerNext_append_lc hlc ls bc,
      readerRun_next ls bc] at *
    rcases hn : readerNext ls bc with ⟨s, rest, b2⟩
    rw [hn] at hnp2
    have hrest : s ≠ .done → rest.length ≤ k := by
      intro hs
      have := readerNext_ne_done_lt ls bc (by rw [hn]; exact hs)
      rw [hn] at this
      simp only at this
      omega
    cases s with
    | done => simp
    | panicked => simp at hnp2
    | yieldBrick b =>
      have hle := hrest (by simp)
      simp only [List.mem_cons, not_or] at hnp2
      have := ih rest b2 hle hnp2.2
      simp only [reduceCtorEq, if_false]
      rw [this]
    | yieldErr e =>
      have hle := hrest (by simp)
      simp only [List.mem_cons, not_or] at hnp2
      have := ih rest b2 hle hnp2.2
      simp only [reduceCtorEq, if_false]
      rw [this]

/-- C9 witness: a trailing `Linecount 500` line after an empty record
stream yields no record and sets the declared count to 500. -/
theorem c9_trailing_linecount_witness :
    readerRun ([] ++ [linecountPfx ++ "500".toList]) none
      = ((readerRun [] none).1, some 500) :=
  c9_trailing_linecount "500".toList 500 (by decide) [] none (by decide)

/-- C10 witness: the three clauses of the amended peek behavior applied to
concrete headers (empty stream, a `Linecount 7` head line, and a base
record head line left unconsumed). -/
theorem c10_header_peek_amended_witness :
    readHeader [[], "0".toList]
      = .ok ({ description := []
               colors := List.replicate 64 (0, 0, 0, 0)
               brickCount := none }, [])
    ∧ readHeader ([[], "0".toList] ++ List.replicate 64 ([] : Line) ++ ["Linecount 7".toList])
        = .ok ({ description := []
                 colors := List.replicate 64 (0, 0, 0, 0)
                 brickCount := some 7 }, [])
    ∧ readHeader ([[], "0".toList] ++ List.replicate 64 ([] : Line) ++ ["X\" ".toList])
        = .ok ({ description := []
                 colors := List.replicate 64 (0, 0, 0, 0)
                 brickCount := none }, ["X\" ".toList]) :=
  ⟨(c10_header_peek_amended [[], "0".toList] []
      (List.replicate 64 ((0 : ℚ), (0 : ℚ), (0 : ℚ), (0 : ℚ))) [] (by decide)).1 rfl,
    ((c10_header_peek_amended ([[], "0".toList] ++ List.replicate 64 ([] : Line)
        ++ ["Linecount 7".toList]) []
      (List.replicate 64 ((0 : ℚ), (0 : ℚ), (0 : ℚ), (0 : ℚ))) ["Linecount 7".toList]
      (by decide)).2 "Linecount 7".toList [] rfl).1 7 (by decide),
    ((c10_header_peek_amended ([[], "0".toList] ++ List.replicate 64 ([] : Line)
        ++ ["X\" ".toList]) []
      (List.replicate 64 ((0 : ℚ), (0 : ℚ), (0 : ℚ), (0 : ℚ))) ["X\" ".toList]
      (by decide)).2 "X\" ".toList [] rfl).2.2
      (.base
        { uiName := ['X'], position := (0, 0, 0), angle := 0, isBaseplate := false,
          colorIndex := 0, print := [], colorFx := 0, shapeFx := 0, raycasting := false,
          collision := false, rendering := false })
      (by decide) (fun n h => BrickLine.noConfusion h)⟩
